import Mathlib

set_option maxRecDepth 10000

/-!
Verification of the repo_selector repository against its specification.

Shallow embedding conventions: Python floats are modelled as exact
rationals together with an explicit rounding function `fl` to the nearest
IEEE binary64 value (53 significand bits, ties to even); machine integers
are Int/Nat; fallible external calls are Except values or Option values;
the SQLite store is a record of lists of rows.
-/

attribute [local semireducible] Rat.add Rat.mul Rat.inv Rat.sub Rat.ofScientific

/-! ## Binary64 rounding model -/

/-- Fuel-bounded floor of the base-2 logarithm of a natural number. -/
def log2fuel : ℕ → ℕ → ℕ
  | 0, _ => 0
  | f + 1, n => if n < 2 then 0 else log2fuel f (n / 2) + 1

/-- Floor of the base-2 logarithm of a positive natural number. -/
def natLog2 (n : ℕ) : ℕ := log2fuel n n

/-- Binade exponent of a positive rational: the unique e with
2 ^ e ≤ q < 2 ^ (e + 1). -/
def exp2 (q : ℚ) : ℤ :=
  if q.den * 2 ^ natLog2 q.num.natAbs ≤ q.num.natAbs * 2 ^ natLog2 q.den
  then (natLog2 q.num.natAbs : ℤ) - natLog2 q.den
  else (natLog2 q.num.natAbs : ℤ) - natLog2 q.den - 1

/-- Rounding of a rational to the nearest integer, ties to even. This is
the rounding used both inside binary64 arithmetic and by the Python
builtin round. -/
def rhe (q : ℚ) : ℤ :=
  if q - ⌊q⌋ < 1/2 then ⌊q⌋
  else if 1/2 < q - ⌊q⌋ then ⌊q⌋ + 1
  else if ⌊q⌋ % 2 = 0 then ⌊q⌋ else ⌊q⌋ + 1

/-- Value of the IEEE binary64 float nearest to a nonnegative rational:
the significand is rounded to 53 bits, ties to even. The exponent range
is unbounded here; the modelled program never leaves the normal range. -/
def fl (q : ℚ) : ℚ :=
  if q ≤ 0 then 0
  else (rhe (q * 2 ^ (52 - exp2 q)) : ℚ) * 2 ^ (exp2 q - 52)

/-- Python round(x, 1) on a float x: the nearest decimal with one
fractional digit, ties to even on the exact value of x, converted back to
the nearest binary64 value. -/
def pyRound1 (x : ℚ) : ℚ := fl ((rhe (x * 10) : ℚ) / 10)

theorem floor_le_rhe (q : ℚ) : ⌊q⌋ ≤ rhe q := by
  unfold rhe; split_ifs <;> omega

theorem rhe_le_add_half (q : ℚ) : (rhe q : ℚ) ≤ q + 1/2 := by
  have h1 : (⌊q⌋ : ℚ) ≤ q := Int.floor_le q
  have h2 : q < ⌊q⌋ + 1 := Int.lt_floor_add_one q
  unfold rhe; split_ifs with ha hb hc <;> push_cast <;> linarith

theorem sub_half_le_rhe (q : ℚ) : q - 1/2 ≤ (rhe q : ℚ) := by
  have h1 : (⌊q⌋ : ℚ) ≤ q := Int.floor_le q
  have h2 : q < ⌊q⌋ + 1 := Int.lt_floor_add_one q
  unfold rhe; split_ifs with ha hb hc <;> push_cast <;> linarith

theorem rhe_mono {x y : ℚ} (h : x ≤ y) : rhe x ≤ rhe y := by
  by_contra hc
  push_neg at hc
  have h1 : rhe y + 1 ≤ rhe x := hc
  have h2 : (rhe x : ℚ) ≤ x + 1/2 := rhe_le_add_half x
  have h3 : y - 1/2 ≤ (rhe y : ℚ) := sub_half_le_rhe y
  have h4 : ((rhe y : ℚ) + 1) ≤ (rhe x : ℚ) := by exact_mod_cast h1
  have hyx : y ≤ x := by linarith
  have hxy : x = y := le_antisymm h hyx
  subst hxy
  omega

theorem rhe_nonneg {q : ℚ} (hq : 0 ≤ q) : 0 ≤ rhe q := by
  have h1 := floor_le_rhe q
  have h2 : 0 ≤ ⌊q⌋ := Int.floor_nonneg.mpr hq
  omega

theorem log2fuel_bracket :
    ∀ f n, 0 < n → n ≤ f → 2 ^ log2fuel f n ≤ n ∧ n < 2 ^ (log2fuel f n + 1) := by
  intro f
  induction f with
  | zero => intro n h1 h2; omega
  | succ f ih =>
    intro n h1 h2
    by_cases hn : n < 2
    · simp only [log2fuel, if_pos hn]
      omega
    · have hm1 : 0 < n / 2 := by omega
      have hm2 : n / 2 ≤ f := by omega
      obtain ⟨l, r⟩ := ih (n / 2) hm1 hm2
      simp only [log2fuel, if_neg hn]
      have e1 : (2:ℕ) ^ (log2fuel f (n / 2) + 1) = 2 * 2 ^ log2fuel f (n / 2) := by ring
      have e2 : (2:ℕ) ^ (log2fuel f (n / 2) + 1 + 1) = 2 * 2 ^ (log2fuel f (n / 2) + 1) := by
        ring
      omega

theorem natLog2_bracket {n : ℕ} (h : 0 < n) :
    2 ^ natLog2 n ≤ n ∧ n < 2 ^ (natLog2 n + 1) :=
  log2fuel_bracket n n h le_rfl

theorem exp2_aux (N D : ℕ) (hN : 0 < N) (hD : 0 < D) :
    (2:ℚ) ^ (if D * 2 ^ natLog2 N ≤ N * 2 ^ natLog2 D
        then (natLog2 N : ℤ) - natLog2 D
        else (natLog2 N : ℤ) - natLog2 D - 1) ≤ (N : ℚ) / D ∧
    (N : ℚ) / D < (2:ℚ) ^ ((if D * 2 ^ natLog2 N ≤ N * 2 ^ natLog2 D
        then (natLog2 N : ℤ) - natLog2 D
        else (natLog2 N : ℤ) - natLog2 D - 1) + 1) := by
  obtain ⟨ha1, ha2⟩ := natLog2_bracket hN
  obtain ⟨hb1, hb2⟩ := natLog2_bracket hD
  have Ha1 : (2:ℚ) ^ natLog2 N ≤ (N : ℚ) := by exact_mod_cast ha1
  have Ha2 : (N : ℚ) < 2 ^ (natLog2 N + 1) := by exact_mod_cast ha2
  have Hb1 : (2:ℚ) ^ natLog2 D ≤ (D : ℚ) := by exact_mod_cast hb1
  have Hb2 : (D : ℚ) < 2 ^ (natLog2 D + 1) := by exact_mod_cast hb2
  have hDpos : (0:ℚ) < (D : ℚ) := by exact_mod_cast hD
  have hNpos : (0:ℚ) < (N : ℚ) := by exact_mod_cast hN
  have hpow : ∀ k : ℕ, (0:ℚ) < 2 ^ k := fun k => pow_pos two_pos k
  split_ifs with hcond
  · have hcondq : (D : ℚ) * 2 ^ natLog2 N ≤ (N : ℚ) * 2 ^ natLog2 D := by
      exact_mod_cast hcond
    constructor
    · rw [zpow_sub₀ two_ne_zero, zpow_natCast, zpow_natCast,
        div_le_div_iff (hpow _) hDpos]
      linarith
    · have he : (natLog2 N : ℤ) - natLog2 D + 1
          = ((natLog2 N + 1 : ℕ) : ℤ) - natLog2 D := by push_cast; ring
      rw [he, zpow_sub₀ two_ne_zero, zpow_natCast, zpow_natCast,
        div_lt_div_iff hDpos (hpow _)]
      have h5 : (N : ℚ) * 2 ^ natLog2 D < 2 ^ (natLog2 N + 1) * 2 ^ natLog2 D :=
        mul_lt_mul_of_pos_right Ha2 (hpow _)
      have h6 : (2:ℚ) ^ (natLog2 N + 1) * 2 ^ natLog2 D
          ≤ 2 ^ (natLog2 N + 1) * (D : ℚ) :=
        mul_le_mul_of_nonneg_left Hb1 (hpow _).le
      linarith
  · have hcondq : (N : ℚ) * 2 ^ natLog2 D < (D : ℚ) * 2 ^ natLog2 N := by
      exact_mod_cast not_le.mp hcond
    constructor
    · have he : (natLog2 N : ℤ) - natLog2 D - 1
          = (natLog2 N : ℤ) - ((natLog2 D + 1 : ℕ) : ℤ) := by push_cast; ring
      rw [he, zpow_sub₀ two_ne_zero, zpow_natCast, zpow_natCast,
        div_le_div_iff (hpow _) hDpos]
      have h5 : (2:ℚ) ^ natLog2 N * (D : ℚ) ≤ (N : ℚ) * (D : ℚ) :=
        mul_le_mul_of_nonneg_right Ha1 hDpos.le
      have h6 : (N : ℚ) * (D : ℚ) < (N : ℚ) * 2 ^ (natLog2 D + 1) :=
        mul_lt_mul_of_pos_left Hb2 hNpos
      linarith
    · have he : (natLog2 N : ℤ) - natLog2 D - 1 + 1
          = (natLog2 N : ℤ) - natLog2 D := by ring
      rw [he, zpow_sub₀ two_ne_zero, zpow_natCast, zpow_natCast,
        div_lt_div_iff hDpos (hpow _)]
      linarith

theorem exp2_bracket {q : ℚ} (hq : 0 < q) :
    (2:ℚ) ^ exp2 q ≤ q ∧ q < (2:ℚ) ^ (exp2 q + 1) := by
  have hnum : 0 < q.num := Rat.num_pos.mpr hq
  have hN : 0 < q.num.natAbs := Int.natAbs_pos.mpr hnum.ne'
  have hD : 0 < q.den := q.den_pos
  have hqe : q = (q.num.natAbs : ℚ) / (q.den : ℚ) := by
    have h1 : ((q.num.natAbs : ℕ) : ℚ) = (q.num : ℚ) := by
      rw [Int.cast_natAbs]
      exact_mod_cast abs_of_nonneg hnum.le
    rw [h1, Rat.num_div_den]
  have key := exp2_aux q.num.natAbs q.den hN hD
  rw [← hqe] at key
  exact key

theorem exp2_mono {x y : ℚ} (hx : 0 < x) (h : x ≤ y) : exp2 x ≤ exp2 y := by
  have hy : 0 < y := lt_of_lt_of_le hx h
  by_contra hc
  push_neg at hc
  have h1 : exp2 y + 1 ≤ exp2 x := hc
  have h2 : y < 2 ^ (exp2 y + 1) := (exp2_bracket hy).2
  have h3 : (2:ℚ) ^ exp2 x ≤ x := (exp2_bracket hx).1
  have h4 : (2:ℚ) ^ (exp2 y + 1) ≤ 2 ^ exp2 x := zpow_le_zpow_right₀ one_le_two h1
  linarith

theorem fl_nonneg (q : ℚ) : 0 ≤ fl q := by
  unfold fl
  split_ifs with h
  · exact le_refl 0
  · push_neg at h
    have h1 : 0 ≤ rhe (q * 2 ^ (52 - exp2 q)) :=
      rhe_nonneg (mul_nonneg h.le (zpow_pos two_pos _).le)
    exact mul_nonneg (by exact_mod_cast h1) (zpow_pos two_pos _).le

theorem fl_le_binade {q : ℚ} (hq : 0 < q) : fl q ≤ (2:ℚ) ^ (exp2 q + 1) := by
  unfold fl
  rw [if_neg (not_le.mpr hq)]
  have hpos : (0:ℚ) < 2 ^ (52 - exp2 q) := zpow_pos two_pos _
  have htlt : q * 2 ^ (52 - exp2 q) < 2 ^ (53:ℤ) := by
    have h2 : q < 2 ^ (exp2 q + 1) := (exp2_bracket hq).2
    have h3 : q * 2 ^ (52 - exp2 q) < 2 ^ (exp2 q + 1) * 2 ^ (52 - exp2 q) :=
      mul_lt_mul_of_pos_right h2 hpos
    have h4 : (2:ℚ) ^ (exp2 q + 1) * 2 ^ (52 - exp2 q) = 2 ^ (53:ℤ) := by
      rw [← zpow_add₀ (two_ne_zero : (2:ℚ) ≠ 0)]
      congr 1
      ring
    linarith
  have hr : (rhe (q * 2 ^ (52 - exp2 q)) : ℚ) ≤ q * 2 ^ (52 - exp2 q) + 1/2 :=
    rhe_le_add_half _
  have hc : ((2:ℚ) ^ (53:ℤ)) = (((2:ℤ) ^ (53:ℕ) : ℤ) : ℚ) := by
    rw [show (53:ℤ) = ((53:ℕ):ℤ) by rfl, zpow_natCast]
    push_cast
    ring
  have hrle : rhe (q * 2 ^ (52 - exp2 q)) ≤ 2 ^ (53:ℕ) := by
    have h5 : (rhe (q * 2 ^ (52 - exp2 q)) : ℚ) < (((2:ℤ) ^ (53:ℕ) + 1 : ℤ) : ℚ) := by
      push_cast
      rw [hc] at htlt
      push_cast at htlt
      linarith
    have h6 : rhe (q * 2 ^ (52 - exp2 q)) < (2:ℤ) ^ (53:ℕ) + 1 := by exact_mod_cast h5
    omega
  have h7 : (rhe (q * 2 ^ (52 - exp2 q)) : ℚ) ≤ (2:ℚ) ^ (53:ℤ) := by
    rw [hc]
    exact_mod_cast hrle
  have h8 : (rhe (q * 2 ^ (52 - exp2 q)) : ℚ) * 2 ^ (exp2 q - 52)
      ≤ (2:ℚ) ^ (53:ℤ) * 2 ^ (exp2 q - 52) :=
    mul_le_mul_of_nonneg_right h7 (zpow_pos two_pos _).le
  have h9 : (2:ℚ) ^ (53:ℤ) * 2 ^ (exp2 q - 52) = 2 ^ (exp2 q + 1) := by
    rw [← zpow_add₀ (two_ne_zero : (2:ℚ) ≠ 0)]
    congr 1
    ring
  linarith

theorem binade_le_fl {q : ℚ} (hq : 0 < q) : (2:ℚ) ^ exp2 q ≤ fl q := by
  unfold fl
  rw [if_neg (not_le.mpr hq)]
  have hpos : (0:ℚ) < 2 ^ (52 - exp2 q) := zpow_pos two_pos _
  have htge : (2:ℚ) ^ (52:ℤ) ≤ q * 2 ^ (52 - exp2 q) := by
    have h1 : (2:ℚ) ^ exp2 q ≤ q := (exp2_bracket hq).1
    have h2 : (2:ℚ) ^ exp2 q * 2 ^ (52 - exp2 q) ≤ q * 2 ^ (52 - exp2 q) :=
      mul_le_mul_of_nonneg_right h1 hpos.le
    have h3 : (2:ℚ) ^ exp2 q * 2 ^ (52 - exp2 q) = 2 ^ (52:ℤ) := by
      rw [← zpow_add₀ (two_ne_zero : (2:ℚ) ≠ 0)]
      congr 1
      ring
    linarith
  have hc : ((2:ℚ) ^ (52:ℤ)) = (((2:ℤ) ^ (52:ℕ) : ℤ) : ℚ) := by
    rw [show (52:ℤ) = ((52:ℕ):ℤ) by rfl, zpow_natCast]
    push_cast
    ring
  have hr : q * 2 ^ (52 - exp2 q) - 1/2 ≤ (rhe (q * 2 ^ (52 - exp2 q)) : ℚ) :=
    sub_half_le_rhe _
  have hrge : (2:ℤ) ^ (52:ℕ) ≤ rhe (q * 2 ^ (52 - exp2 q)) := by
    have h5 : (((2:ℤ) ^ (52:ℕ) - 1 : ℤ) : ℚ) < (rhe (q * 2 ^ (52 - exp2 q)) : ℚ) := by
      rw [hc] at htge
      push_cast at htge ⊢
      linarith
    have h6 : (2:ℤ) ^ (52:ℕ) - 1 < rhe (q * 2 ^ (52 - exp2 q)) := by exact_mod_cast h5
    omega
  have h7 : (2:ℚ) ^ (52:ℤ) ≤ (rhe (q * 2 ^ (52 - exp2 q)) : ℚ) := by
    rw [hc]
    exact_mod_cast hrge
  have h8 : (2:ℚ) ^ (52:ℤ) * 2 ^ (exp2 q - 52)
      ≤ (rhe (q * 2 ^ (52 - exp2 q)) : ℚ) * 2 ^ (exp2 q - 52) :=
    mul_le_mul_of_nonneg_right h7 (zpow_pos two_pos _).le
  have h9 : (2:ℚ) ^ (52:ℤ) * 2 ^ (exp2 q - 52) = 2 ^ exp2 q := by
    rw [← zpow_add₀ (two_ne_zero : (2:ℚ) ≠ 0)]
    congr 1
    ring
  linarith

theorem fl_mono {x y : ℚ} (h : x ≤ y) : fl x ≤ fl y := by
  rcases le_or_lt x 0 with hx | hx
  · have hx0 : fl x = 0 := by unfold fl; rw [if_pos hx]
    rw [hx0]
    exact fl_nonneg y
  · have hy : 0 < y := lt_of_lt_of_le hx h
    have he : exp2 x ≤ exp2 y := exp2_mono hx h
    rcases eq_or_lt_of_le he with heq | hlt
    · have h1 : x * 2 ^ (52 - exp2 x) ≤ y * 2 ^ (52 - exp2 x) :=
        mul_le_mul_of_nonneg_right h (zpow_pos two_pos _).le
      unfold fl
      rw [if_neg (not_le.mpr hx), if_neg (not_le.mpr hy), ← heq]
      exact mul_le_mul_of_nonneg_right (by exact_mod_cast rhe_mono h1)
        (zpow_pos two_pos _).le
    · calc fl x ≤ 2 ^ (exp2 x + 1) := fl_le_binade hx
        _ ≤ 2 ^ exp2 y := zpow_le_zpow_right₀ one_le_two (by omega)
        _ ≤ fl y := binade_le_fl hy

theorem pyRound1_mono {x y : ℚ} (h : x ≤ y) : pyRound1 x ≤ pyRound1 y := by
  apply fl_mono
  have h1 : x * 10 ≤ y * 10 := by linarith
  have h2 : (rhe (x * 10) : ℚ) ≤ (rhe (y * 10) : ℚ) := by exact_mod_cast rhe_mono h1
  linarith

example : fl (3/10) = (5404319552844595 : ℚ) / 18014398509481984 := by decide
example : fl (7/10) = (3152519739159347 : ℚ) / 4503599627370496 := by decide
example : fl (7/2) = (7:ℚ) / 2 := by decide

/-! ## Models of the pure scoring functions of src/repo_analyzer.py -/

/-- Model of RepositoryAnalyzer._calculate_suitability_score: the Python
expression a*0.3 + o*0.35 + c*0.2 + m*0.15 evaluated left to right in
binary64 arithmetic (each literal and each intermediate result rounded to
the nearest double), followed by Python round(x, 1). -/
def calcSuitabilityScore (activity opportunity complexity maintainability : ℚ) : ℚ :=
  pyRound1 (fl (fl (fl (fl (activity * fl (3/10)) + fl (opportunity * fl (35/100)))
    + fl (complexity * fl (2/10))) + fl (maintainability * fl (15/100))))

/-- Model of RepositoryAnalyzer._generate_recommendation; the thresholds
4.2, 3.5 and 2.5 are binary64 literals. -/
def generateRecommendation (score : ℚ) : String :=
  if fl (21/5) ≤ score then
    "🎯 EXCELLENT choice for SWE Challenge V3! High activity with great opportunities."
  else if fl (7/2) ≤ score then
    "✅ GOOD choice for SWE Challenge V3. Should find suitable contribution opportunities."
  else if fl (5/2) ≤ score then
    "⚠️ MODERATE choice. May require more effort to find good contribution opportunities."
  else
    "❌ NOT RECOMMENDED. Consider looking for more active repositories with clearer opportunities."

theorem calcScore_mono_activity {a b o c m : ℚ} (h : a ≤ b) :
    calcSuitabilityScore a o c m ≤ calcSuitabilityScore b o c m := by
  unfold calcSuitabilityScore
  apply pyRound1_mono
  apply fl_mono
  have h1 : a * fl (3/10) ≤ b * fl (3/10) :=
    mul_le_mul_of_nonneg_right h (fl_nonneg _)
  have h2 := fl_mono h1
  have h3 := fl_mono (add_le_add_right h2 (fl (o * fl (35/100))))
  have h4 := fl_mono (add_le_add_right h3 (fl (c * fl (2/10))))
  exact add_le_add_right h4 (fl (m * fl (15/100)))

theorem calcScore_mono_opportunity {a o p c m : ℚ} (h : o ≤ p) :
    calcSuitabilityScore a o c m ≤ calcSuitabilityScore a p c m := by
  unfold calcSuitabilityScore
  apply pyRound1_mono
  apply fl_mono
  have h1 : o * fl (35/100) ≤ p * fl (35/100) :=
    mul_le_mul_of_nonneg_right h (fl_nonneg _)
  have h2 := fl_mono h1
  have h3 := fl_mono (add_le_add_left h2 (fl (a * fl (3/10))))
  have h4 := fl_mono (add_le_add_right h3 (fl (c * fl (2/10))))
  exact add_le_add_right h4 (fl (m * fl (15/100)))

theorem calcScore_mono_complexity {a o c d m : ℚ} (h : c ≤ d) :
    calcSuitabilityScore a o c m ≤ calcSuitabilityScore a o d m := by
  unfold calcSuitabilityScore
  apply pyRound1_mono
  apply fl_mono
  have h1 : c * fl (2/10) ≤ d * fl (2/10) :=
    mul_le_mul_of_nonneg_right h (fl_nonneg _)
  have h2 := fl_mono h1
  have h3 := fl_mono (add_le_add_left h2 (fl (fl (a * fl (3/10)) + fl (o * fl (35/100)))))
  exact add_le_add_right h3 (fl (m * fl (15/100)))

theorem calcScore_mono_maintainability {a o c m n : ℚ} (h : m ≤ n) :
    calcSuitabilityScore a o c m ≤ calcSuitabilityScore a o c n := by
  unfold calcSuitabilityScore
  apply pyRound1_mono
  apply fl_mono
  have h1 : m * fl (15/100) ≤ n * fl (15/100) :=
    mul_le_mul_of_nonneg_right h (fl_nonneg _)
  have h2 := fl_mono h1
  exact add_le_add_left h2 (fl (fl (fl (a * fl (3/10)) + fl (o * fl (35/100)))
    + fl (c * fl (2/10))))

theorem calcScore_top : calcSuitabilityScore 5 5 5 5 = 5 := by decide

theorem calcScore_bot : calcSuitabilityScore 0 0 0 0 = 0 := by decide

/-- C6: the overall suitability score is weakly monotonic in each of the
four component scores with the other three held fixed, and for component
inputs each in [0, 5] the overall score lies in [0, 5]. -/
theorem c6_overall_score_monotone_and_bounded :
    (∀ a b o c m : ℚ, a ≤ b →
      calcSuitabilityScore a o c m ≤ calcSuitabilityScore b o c m) ∧
    (∀ a o p c m : ℚ, o ≤ p →
      calcSuitabilityScore a o c m ≤ calcSuitabilityScore a p c m) ∧
    (∀ a o c d m : ℚ, c ≤ d →
      calcSuitabilityScore a o c m ≤ calcSuitabilityScore a o d m) ∧
    (∀ a o c m n : ℚ, m ≤ n →
      calcSuitabilityScore a o c m ≤ calcSuitabilityScore a o c n) ∧
    (∀ a o c m : ℚ, 0 ≤ a → a ≤ 5 → 0 ≤ o → o ≤ 5 → 0 ≤ c → c ≤ 5 →
      0 ≤ m → m ≤ 5 →
      0 ≤ calcSuitabilityScore a o c m ∧ calcSuitabilityScore a o c m ≤ 5) := by
  refine ⟨fun a b o c m h => calcScore_mono_activity h,
    fun a o p c m h => calcScore_mono_opportunity h,
    fun a o c d m h => calcScore_mono_complexity h,
    fun a o c m n h => calcScore_mono_maintainability h,
    fun a o c m ha0 ha5 ho0 ho5 hc0 hc5 hm0 hm5 => ⟨?_, ?_⟩⟩
  · have h1 : calcSuitabilityScore 0 0 0 0 ≤ calcSuitabilityScore a 0 0 0 :=
      calcScore_mono_activity ha0
    have h2 : calcSuitabilityScore a 0 0 0 ≤ calcSuitabilityScore a o 0 0 :=
      calcScore_mono_opportunity ho0
    have h3 : calcSuitabilityScore a o 0 0 ≤ calcSuitabilityScore a o c 0 :=
      calcScore_mono_complexity hc0
    have h4 : calcSuitabilityScore a o c 0 ≤ calcSuitabilityScore a o c m :=
      calcScore_mono_maintainability hm0
    have h0 := calcScore_bot
    linarith
  · have h1 : calcSuitabilityScore a o c m ≤ calcSuitabilityScore 5 o c m :=
      calcScore_mono_activity ha5
    have h2 : calcSuitabilityScore 5 o c m ≤ calcSuitabilityScore 5 5 c m :=
      calcScore_mono_opportunity ho5
    have h3 : calcSuitabilityScore 5 5 c m ≤ calcSuitabilityScore 5 5 5 m :=
      calcScore_mono_complexity hc5
    have h4 : calcSuitabilityScore 5 5 5 m ≤ calcSuitabilityScore 5 5 5 5 :=
      calcScore_mono_maintainability hm5
    have h5 := calcScore_top
    linarith

/-- C6 witness: the monotonicity conjuncts applied at 1 ≤ 2 and the range
conjunct applied at the concrete point (1, 2, 3, 4). -/
theorem c6_overall_score_monotone_and_bounded_witness :
    calcSuitabilityScore 1 2 3 4 ≤ calcSuitabilityScore 2 2 3 4 ∧
    calcSuitabilityScore 1 1 3 4 ≤ calcSuitabilityScore 1 2 3 4 ∧
    calcSuitabilityScore 1 2 2 4 ≤ calcSuitabilityScore 1 2 3 4 ∧
    calcSuitabilityScore 1 2 3 3 ≤ calcSuitabilityScore 1 2 3 4 ∧
    (0 ≤ calcSuitabilityScore 1 2 3 4 ∧ calcSuitabilityScore 1 2 3 4 ≤ 5) :=
  ⟨c6_overall_score_monotone_and_bounded.1 1 2 2 3 4 (by norm_num),
   c6_overall_score_monotone_and_bounded.2.1 1 1 2 3 4 (by norm_num),
   c6_overall_score_monotone_and_bounded.2.2.1 1 2 2 3 4 (by norm_num),
   c6_overall_score_monotone_and_bounded.2.2.2.1 1 2 3 3 4 (by norm_num),
   c6_overall_score_monotone_and_bounded.2.2.2.2 1 2 3 4 (by norm_num) (by norm_num)
     (by norm_num) (by norm_num) (by norm_num) (by norm_num) (by norm_num) (by norm_num)⟩

/-- C7: for component scores (activity 5, opportunity 4, complexity 5,
maintainability 5) the combination step yields the binary64 value 4.7
(the float sum lies slightly above 4.65 and Python round gives 4.7), the
suitability flag score at least 3.5 holds, and the recommendation is the
excellent bucket for scores at least 4.2. -/
theorem c7_scenario_score_4_7 :
    calcSuitabilityScore 5 4 5 5 = fl (47/10) ∧
    fl (7/2) ≤ calcSuitabilityScore 5 4 5 5 ∧
    fl (21/5) ≤ calcSuitabilityScore 5 4 5 5 ∧
    generateRecommendation (calcSuitabilityScore 5 4 5 5) =
      "🎯 EXCELLENT choice for SWE Challenge V3! High activity with great opportunities." := by
  refine ⟨by decide, by decide, by decide, ?_⟩
  have h : fl (21/5) ≤ calcSuitabilityScore 5 4 5 5 := by decide
  rw [generateRecommendation, if_pos h]

/-- Language edge of the GraphQL languages list: a name and a byte size. -/
structure LangEdge where
  name : String
  size : ℕ
deriving DecidableEq

/-- Model of RepositoryAnalyzer._calculate_python_percentage: the first
language edge named Python has its size divided by the total byte size in
binary64 arithmetic; the result is 0 when the total size is 0 or no
Python edge exists. -/
def calculate_python_percentage (languages : List LangEdge) (totalSize : ℕ) : ℚ :=
  if totalSize = 0 then 0
  else
    match languages.find? (fun l => l.name == "Python") with
    | some l => fl ((l.size : ℚ) / (totalSize : ℚ))
    | none => 0

/-- Model of RepositoryAnalyzer._passes_criteria. The literal 0.7 of the
source is a binary64 literal, modelled as fl (7/10); the
python_percentage argument is itself a binary64 value as produced by
calculate_python_percentage. -/
def passes_criteria (stars : ℤ) (license_ok : Bool) (python_percentage : ℚ) : Bool :=
  license_ok && decide (stars < 10000) && decide (fl (7/10) < python_percentage)

/-- C2: passes_criteria holds exactly when the license is allowed, the
star count is below 10000 and the Python fraction is strictly above the
0.7 threshold; the boundary cases are stars 9999 (passes) against 10000
(fails) and a fraction of exactly 0.7 (fails) against 0.8 (passes). -/
theorem c2_passes_criteria_iff :
    (∀ (stars : ℤ) (license_ok : Bool) (pf : ℚ),
      passes_criteria stars license_ok pf = true ↔
        (license_ok = true ∧ stars < 10000 ∧ fl (7/10) < pf)) ∧
    passes_criteria 9999 true (fl (8/10)) = true ∧
    passes_criteria 10000 true (fl (8/10)) = false ∧
    passes_criteria 9999 true (fl (7/10)) = false ∧
    calculate_python_percentage [⟨"Python", 8⟩, ⟨"C", 2⟩] 10 = fl (8/10) := by
  refine ⟨?_, by decide, by decide, by decide, by decide⟩
  intro stars lok pf
  simp [passes_criteria, and_assoc]

/-- Model of the score computed by RepositoryAnalyzer._assess_complexity:
a size-band base score from the repository size in KB (bands 2, 3, 4, 5),
minus 1 when the primary language is not Python (floored at 1), minus 0.5
when the description has at most 50 characters (floored at 1), clamped to
[0, 5] at the end. All the arithmetic is exact in binary64 (halves and
division of an exactly-represented integer by 1024), so rationals model
it directly; the textual reasons and warnings carry no logic and are not
modelled. -/
def assess_complexity_score (size_kb : ℕ) (language : Option String)
    (description : String) : ℚ :=
  let size_mb : ℚ := fl (size_kb : ℚ) / 1024
  let score1 : ℚ :=
    if 200 < size_mb then 2
    else if 100 < size_mb then 3
    else if 50 < size_mb then 4
    else 5
  let score2 : ℚ := if language == some "Python" then score1 else max 1 (score1 - 1)
  let score3 : ℚ :=
    if 50 < description.length then score2 else max 1 (score2 - 1/2)
  max (min score3 5) 0

/-- C10: for every repository input whose description is a string, the
complexity score lies in [1, 5]; the lower clamp 0 is unreachable since
every size band starts at 2 or higher and both deductions floor at 1. -/
theorem c10_complexity_score_range :
    ∀ (size_kb : ℕ) (language : Option String) (description : String),
      1 ≤ assess_complexity_score size_kb language description ∧
      assess_complexity_score size_kb language description ≤ 5 := by
  intro s l d
  simp only [assess_complexity_score]
  split_ifs <;> norm_num

/-! ## License allow-list (src/config.py) and the scorer license check -/

/-- Model of config.ALLOWED_LICENSES (a Python set; only membership is
used, so a list is adequate). -/
def ALLOWED_LICENSES : List String :=
  ["MIT", "Apache-1.0", "Apache-1.1", "Apache-2.0", "Apache-2.0-Modified",
   "Apache-with-LLVM-Exception", "Apache-with-Runtime-Exception",
   "BSD-1-Clause", "BSD-2-Clause", "BSD-2-Clause-Flex", "BSD-2-Clause-FreeBSD",
   "BSD-2-Clause-Modification", "BSD-2-Clause-Patent", "BSD-2-Clause-Views",
   "BSD-3-Clause", "BSD-3-Clause-Attribution", "BLAS", "BSD-3-Clause-EricHeitz",
   "BSD-3-Clause-HealthLevelSeven", "BSD-3-Clause-LBNL",
   "BSD-3-Clause-Modification", "BSD-3-Clause-OpenMPI",
   "BSD-3-Clause-plus-CMU-Attribution",
   "BSD-3-Clause-plus-Paul-Mackerras-Attribution",
   "BSD-3-Clause-plus-Tommi-Komulainen-Attribution", "BSD-4-Clause",
   "BSD-4-Clause-Argonne", "BSD-4-Clause-Atmel", "BSD-4-Clause-Giffin",
   "BSD-4-Clause-PC-SC-Lite", "BSD-4-Clause-Plus-Modification-Notice",
   "BSD-4-Clause-UC", "BSD-4-Clause-Visigoth", "BSD-4-Clause-Vocal",
   "BSD-4-Clause-Wasabi", "BSD-4.3TAHOE", "BSD-5-Clause", "BSD-FatFs",
   "BSD-Mixed-2-Clause-And-3-Clause", "BSD-Protection", "BSD-Source-Code",
   "BSL-1.0", "CC-BY-1.0", "CC-BY-2.0", "CC-BY-2.5", "CC-BY-3.0", "CC-BY-4.0",
   "GNU-All-permissive-Copying-License", "GPL-2.0-with-autoconf-exception",
   "GPL-2.0-with-classpath-exception", "GPL-3.0-with-autoconf-exception"]

/-- Python substring containment: needle in haystack. -/
def pyIn (needle haystack : String) : Bool :=
  decide (needle.data <:+: haystack.data)

/-- License info of a candidate as delivered by the search API: an spdx
identifier and a display name, either possibly empty. -/
structure LicenseInfo where
  spdxId : String := ""
  name : String := ""
deriving DecidableEq

/-- Identifier selected by RepositoryAnalyzer._analyze_single_repo: the
Python expression spdx_id or name. -/
def licenseNameOf (li : LicenseInfo) : String :=
  if li.spdxId = "" then li.name else li.spdxId

/-- Model of the license_ok computation of
RepositoryAnalyzer._analyze_single_repo: any(allowed in license_name for
allowed in ALLOWED_LICENSES), a case-sensitive substring test; missing or
empty license info gives false. -/
def licenseOk (licenseInfo : Option LicenseInfo) : Bool :=
  match licenseInfo with
  | none => false
  | some li => ALLOWED_LICENSES.any (fun allowed => pyIn allowed (licenseNameOf li))

/-- Modelled from the spec wording, for comparison with the code: case,
dash and underscore insensitive normal form of an identifier. -/
def specNormalizeLicense (s : String) : List Char :=
  (s.data.map Char.toUpper).filter (fun ch => !(ch == '-' || ch == '_'))

/-- Modelled from the spec wording: matching of the identifier against
the allow-list, by substring or exact equality of the normal forms. -/
def specLicenseMatch (identifier : String) : Bool :=
  ALLOWED_LICENSES.any (fun allowed =>
    decide (specNormalizeLicense allowed <:+: specNormalizeLicense identifier)
    || specNormalizeLicense allowed == specNormalizeLicense identifier)

/-- C3 counterexample: the identifier mit differs from the allow-list
entry MIT only in letter case; the matcher the spec describes accepts it,
but the code computes license_ok = false, because the source performs a
case-sensitive substring test. -/
theorem c3_counterexample_case_sensitivity :
    specLicenseMatch "mit" = true ∧
    licenseOk (some { spdxId := "mit", name := "mit" }) = false := by
  constructor
  · decide
  · decide

/-- C3 amended: license_ok is true iff some entry of the configured
allow-list occurs as a case-sensitive substring of the license identifier
(spdxId when nonempty, the name otherwise); absent license info gives
false. -/
theorem c3_amended_license_ok_substring :
    (∀ li : LicenseInfo,
      licenseOk (some li) = true ↔
        ∃ allowed ∈ ALLOWED_LICENSES, pyIn allowed (licenseNameOf li) = true) ∧
    licenseOk none = false := by
  constructor
  · intro li
    simp [licenseOk, List.any_eq_true]
  · rfl

/-! ## Deduplication of the accumulated candidates (src/cli.py search,
also src/api/routes.py search_repositories) -/

/-- Scored candidate as accumulated by the search loop; only the fields
the deduplication step reads or writes are modelled. -/
structure Candidate where
  repo_name : String
  stars : ℤ := 0
  is_new : Bool := false
deriving DecidableEq

/-- Model of the deduplication loop of the cli search command: walk the
accumulator keeping a seen set of names, keep the first occurrence of
each name and set is_new on it. -/
def dedupAux (seen : List String) : List Candidate → List Candidate
  | [] => []
  | r :: rest =>
    if seen.contains r.repo_name then dedupAux seen rest
    else { r with is_new := true } :: dedupAux (r.repo_name :: seen) rest

/-- Deduplication as performed on the full accumulator. -/
def uniqueCandidates (l : List Candidate) : List Candidate := dedupAux [] l

/-- Modelled from the spec: deduplication of a name list keeping the
first occurrence of every name, in first-seen order. -/
def firstSeenNames : List String → List String
  | [] => []
  | a :: t => a :: firstSeenNames (t.filter (fun b => !(b == a)))
termination_by l => l.length
decreasing_by
  simp_wf
  exact Nat.lt_succ_of_le (List.length_filter_le _ t)

theorem firstSeenNames_nil : firstSeenNames [] = [] := by
  rw [firstSeenNames]

theorem firstSeenNames_cons (a : String) (t : List String) :
    firstSeenNames (a :: t) = a :: firstSeenNames (t.filter (fun b => !(b == a))) := by
  rw [firstSeenNames]

theorem mem_firstSeenNames {b : String} :
    ∀ {l : List String}, b ∈ firstSeenNames l → b ∈ l := by
  intro l
  induction l using firstSeenNames.induct with
  | case1 => intro h; rw [firstSeenNames_nil] at h; exact absurd h (List.not_mem_nil b)
  | case2 a t ih =>
    intro h
    rw [firstSeenNames_cons] at h
    rcases List.mem_cons.mp h with h1 | h1
    · exact h1 ▸ List.mem_cons_self a _
    · exact List.mem_cons_of_mem a (List.mem_of_mem_filter (ih h1))

theorem firstSeenNames_nodup : ∀ l : List String, (firstSeenNames l).Nodup := by
  intro l
  induction l using firstSeenNames.induct with
  | case1 => rw [firstSeenNames_nil]; exact List.nodup_nil
  | case2 a t ih =>
    rw [firstSeenNames_cons]
    refine List.nodup_cons.mpr ⟨?_, ih⟩
    intro hmem
    have h1 := mem_firstSeenNames hmem
    have h2 := List.of_mem_filter h1
    simp at h2

theorem dedupAux_names (seen : List String) (l : List Candidate) :
    (dedupAux seen l).map Candidate.repo_name
      = firstSeenNames ((l.map Candidate.repo_name).filter
          (fun b => !(seen.contains b))) := by
  induction l generalizing seen with
  | nil => simp [dedupAux, firstSeenNames_nil]
  | cons r rest ih =>
    by_cases h : seen.contains r.repo_name
    · rw [dedupAux, if_pos h]
      simp only [List.map_cons]
      rw [List.filter_cons_of_neg (by simpa using h)]
      exact ih seen
    · rw [dedupAux, if_neg h]
      simp only [List.map_cons]
      rw [List.filter_cons_of_pos (by simpa using h)]
      rw [firstSeenNames_cons]
      have hmap : ({ r with is_new := true } : Candidate).repo_name = r.repo_name := rfl
      rw [hmap, ih (r.repo_name :: seen)]
      congr 1
      rw [List.filter_filter]
      congr 1
      apply List.filter_congr
      intro b _
      by_cases hbe : b = r.repo_name <;>
        simp [hbe, List.contains_cons, Bool.not_or, Bool.and_comm]

theorem dedupAux_is_new (seen : List String) (l : List Candidate) :
    ∀ r ∈ dedupAux seen l, r.is_new = true := by
  induction l generalizing seen with
  | nil => intro r h; exact absurd h (List.not_mem_nil r)
  | cons x rest ih =>
    intro r h
    rw [dedupAux] at h
    split_ifs at h with hx
    · exact ih seen r h
    · rcases List.mem_cons.mp h with h1 | h1
      · rw [h1]
      · exact ih _ r h1

/-- C4: the deduplicated result lists each repository name at most once,
the names appear in first-seen order, and every surviving entry carries
is_new = true. -/
theorem c4_dedup_first_seen_order :
    ∀ l : List Candidate,
      ((uniqueCandidates l).map Candidate.repo_name).Nodup ∧
      (uniqueCandidates l).map Candidate.repo_name
        = firstSeenNames (l.map Candidate.repo_name) ∧
      ∀ r ∈ uniqueCandidates l, r.is_new = true := by
  intro l
  have hnames : (uniqueCandidates l).map Candidate.repo_name
      = firstSeenNames (l.map Candidate.repo_name) := by
    have h := dedupAux_names [] l
    simpa [uniqueCandidates] using h
  refine ⟨?_, hnames, dedupAux_is_new [] l⟩
  rw [hnames]
  exact firstSeenNames_nodup _

/-! ## Search strategies of src/github_client.py and the call the search
loops of src/cli.py and src/api/routes.py make -/

/-- Search strategy entry of GitHubClient.search_with_randomization. -/
structure Strategy where
  sort : String
  min_stars : ℤ
  max_stars : ℤ
  topic : Option String := none
deriving DecidableEq

/-- Model of the strategies list of search_with_randomization; the Python
floor divisions are Int.fdiv and the // binds like * in Python, so
2 * d // 3 is (2 * d) // 3. -/
def strategies (min_stars max_stars : ℤ) : List Strategy :=
  [{ sort := "stars", min_stars := min_stars, max_stars := max_stars },
   { sort := "updated", min_stars := min_stars, max_stars := max_stars },
   { sort := "created", min_stars := min_stars, max_stars := max_stars },
   { sort := "stars", min_stars := min_stars,
     max_stars := min_stars + (max_stars - min_stars).fdiv 3 },
   { sort := "stars", min_stars := min_stars + (max_stars - min_stars).fdiv 3 + 1,
     max_stars := min_stars + (2 * (max_stars - min_stars)).fdiv 3 },
   { sort := "stars", min_stars := min_stars + (2 * (max_stars - min_stars)).fdiv 3 + 1,
     max_stars := max_stars },
   { sort := "updated", min_stars := max 100 (min_stars - 200),
     max_stars := max_stars + 1000 },
   { sort := "created", min_stars := min_stars, max_stars := min 50000 (max_stars * 2) },
   { sort := "stars", min_stars := min_stars, max_stars := max_stars,
     topic := some "machine-learning" },
   { sort := "stars", min_stars := min_stars, max_stars := max_stars,
     topic := some "web-development" },
   { sort := "stars", min_stars := min_stars, max_stars := max_stars,
     topic := some "data-science" },
   { sort := "stars", min_stars := min_stars, max_stars := max_stars,
     topic := some "automation" }]

/-- Model of GitHubClient._get_cursor_for_attempt: always None. -/
def getCursorForAttempt (_attempt : ℕ) : Option String := none

/-- Arguments of one call of search_repositories_graphql_with_topics, the
request the Search Provider executes. -/
structure ProviderRequest where
  min_stars : ℤ
  max_stars : ℤ
  limit : ℕ
  after_cursor : Option String
  sort : String
  topic : Option String
deriving DecidableEq

/-- Model of GitHubClient.search_with_randomization: the strategy with
index search_attempt modulo the list length is selected and one request
is issued; the fourth parameter only selects a strategy and a cursor (the
cursor helper always returns None), no pagination offset exists in the
request. -/
def search_with_randomization (min_stars max_stars : ℤ) (limit search_attempt : ℕ) :
    ProviderRequest :=
  let strats := strategies min_stars max_stars
  let strategy := strats.getD (search_attempt % strats.length)
    { sort := "stars", min_stars := min_stars, max_stars := max_stars }
  { min_stars := strategy.min_stars, max_stars := strategy.max_stars, limit := limit,
    after_cursor := if 2 < search_attempt then getCursorForAttempt search_attempt else none,
    sort := strategy.sort, topic := strategy.topic }

/-- Arguments the search loops of src/cli.py (line 191) and
src/api/routes.py (line 44) pass to search_with_randomization: four
positional values whose fourth slot is the search_attempt parameter, and
the loops place current_offset = search_offset + attempt * limit there. -/
structure RandomizationCall where
  min_stars : ℤ
  max_stars : ℤ
  limit : ℕ
  search_attempt : ℕ
deriving DecidableEq

/-- Model of the call site inside the search loop. -/
def cliSearchCall (min_stars max_stars : ℤ) (limit search_offset attempt : ℕ) :
    RandomizationCall :=
  { min_stars := min_stars, max_stars := max_stars, limit := limit,
    search_attempt := search_offset + attempt * limit }

/-- Provider request produced by one loop iteration: the composition of
the call site with search_with_randomization. -/
def cliProviderRequest (min_stars max_stars : ℤ) (limit search_offset attempt : ℕ) :
    ProviderRequest :=
  search_with_randomization min_stars max_stars limit
    (cliSearchCall min_stars max_stars limit search_offset attempt).search_attempt

/-- C1 counterexample: with the default star range 500..50000, limit 100,
starting offset 0, at attempt 1 the loop passes 100 into the strategy
selecting slot, not the attempt number 1, and the resulting provider
request differs from the request that passing the attempt number as the
strategy index would produce; no separate pagination offset argument
exists. -/
theorem c1_counterexample_offset_passed_as_strategy_index :
    (cliSearchCall 500 50000 100 0 1).search_attempt = 100 ∧
    (cliSearchCall 500 50000 100 0 1).search_attempt ≠ 1 ∧
    cliProviderRequest 500 50000 100 0 1 ≠ search_with_randomization 500 50000 100 1 := by
  refine ⟨rfl, by decide, by decide⟩

/-- C1 amended: every loop iteration passes the single combined value
search_offset + attempt * limit in the search_attempt (strategy index)
position of search_with_randomization; the provider reduces it modulo the
length 12 of the strategy list, and the issued request carries no
pagination offset (its cursor is always None). -/
theorem c1_amended_combined_argument :
    ∀ (min_stars max_stars : ℤ) (limit search_offset attempt : ℕ),
      (cliSearchCall min_stars max_stars limit search_offset attempt).search_attempt
        = search_offset + attempt * limit ∧
      cliProviderRequest min_stars max_stars limit search_offset attempt
        = search_with_randomization min_stars max_stars limit
            (search_offset + attempt * limit) ∧
      (strategies min_stars max_stars).length = 12 ∧
      (cliProviderRequest min_stars max_stars limit search_offset attempt).after_cursor
        = none := by
  intro ms mxs limit so attempt
  refine ⟨rfl, rfl, rfl, ?_⟩
  simp [cliProviderRequest, search_with_randomization, cliSearchCall,
    getCursorForAttempt, ite_self]

/-! ## Model of the History Store (src/database.py) -/

/-- Search event row of the per-user search history table. -/
structure SearchEvent where
  search_timestamp : ℤ
  min_stars : ℤ
  max_stars : ℤ
  limit_requested : ℕ
  repos_found : ℕ
  new_repos_shown : ℕ
  search_offset : ℕ
deriving DecidableEq

/-- Tracked repository row of the per-user repositories table. -/
structure RepoRow where
  repo_name : String
  stars : ℤ
  license : String
  py_files_estimate : ℕ
  python_percentage : String
  url : String
  description : String
  first_shown : ℤ
  last_shown : ℤ
  show_count : ℕ
  passes_criteria : Bool
  analysis_score : Option ℚ
deriving DecidableEq

/-- State of one user database: the two tables. -/
structure DbState where
  repositories : List RepoRow
  searchHistory : List SearchEvent
deriving DecidableEq

/-- Repository record passed to add_repositories. -/
structure RepoInput where
  repo_name : String
  stars : ℤ := 0
  license : String := ""
  py_files_estimate : ℕ := 0
  python_percentage : String := ""
  url : String := ""
  description : String := ""
  passes_criteria : Bool := false
  analysis_score : Option ℚ := none
deriving DecidableEq

/-- Search criteria dict of the orchestrator. -/
structure SearchCriteria where
  min_stars : ℤ
  max_stars : ℤ
  limit : ℕ
deriving DecidableEq

/-- Seconds in one day; timestamps are modelled in seconds. -/
def daySeconds : ℤ := 86400

/-- Model of the per-row upsert of add_repositories: an existing row with
the same name has its counters, timestamp and data refreshed, otherwise a
fresh row is inserted at the end. -/
def upsertRepo (now : ℤ) (rows : List RepoRow) (r : RepoInput) : List RepoRow :=
  if rows.any (fun row => row.repo_name == r.repo_name) then
    rows.map (fun row =>
      if row.repo_name == r.repo_name then
        { row with
            last_shown := now
            show_count := row.show_count + 1
            stars := r.stars
            license := r.license
            py_files_estimate := r.py_files_estimate
            python_percentage := r.python_percentage
            description := r.description
            analysis_score := r.analysis_score }
      else row)
  else
    rows ++ [{ repo_name := r.repo_name
               stars := r.stars
               license := r.license
               py_files_estimate := r.py_files_estimate
               python_percentage := r.python_percentage
               url := r.url
               description := r.description
               first_shown := now
               last_shown := now
               show_count := 1
               passes_criteria := r.passes_criteria
               analysis_score := r.analysis_score }]

/-- Search event row appended by add_repositories. -/
def searchEventOf (now : ℤ) (criteria : SearchCriteria) (count : ℕ)
    (search_offset : ℕ) : SearchEvent :=
  { search_timestamp := now
    min_stars := criteria.min_stars
    max_stars := criteria.max_stars
    limit_requested := criteria.limit
    repos_found := count
    new_repos_shown := count
    search_offset := search_offset }

/-- State transformation of add_repositories on a working store: every
repository is upserted and exactly one search history row is appended. -/
def addRepositoriesRun (now : ℤ) (repos : List RepoInput) (criteria : SearchCriteria)
    (search_offset : ℕ) (st : DbState) : DbState :=
  { repositories := repos.foldl (upsertRepo now) st.repositories
    searchHistory := st.searchHistory
      ++ [searchEventOf now criteria repos.length search_offset] }

/-- Query of get_last_search_offset on a working store: the largest
offset among the history rows with the same star bounds from the last
day, 0 when there is none. -/
def lastSearchOffsetRun (now : ℤ) (criteria : SearchCriteria) (st : DbState) : ℕ :=
  ((st.searchHistory.filter (fun e =>
      e.min_stars == criteria.min_stars && e.max_stars == criteria.max_stars
        && decide (now - daySeconds < e.search_timestamp))).map
    SearchEvent.search_offset).foldl max 0

/-- State transformation and deleted-row count of cleanup_old_data on a
working store: repository rows older than the cutoff that carry no
analysis score, and history rows older than the cutoff, are deleted. -/
def cleanupRun (now : ℤ) (days_to_keep : ℤ) (st : DbState) : ℕ × DbState :=
  let cutoff := now - days_to_keep * daySeconds
  let keptRepos := st.repositories.filter
    (fun r => !(decide (r.last_shown < cutoff) && r.analysis_score.isNone))
  let keptHistory := st.searchHistory.filter
    (fun e => !(decide (e.search_timestamp < cutoff)))
  (st.repositories.length - keptRepos.length
    + (st.searchHistory.length - keptHistory.length),
   { repositories := keptRepos, searchHistory := keptHistory })

/-- Query of get_shown_repositories on a working store; the descending
order of the SQL query carries no logic downstream (the caller builds a
set) and is not modelled. -/
def shownRepositoriesRun (now : ℤ) (days_back : ℤ) (st : DbState) : List String :=
  (st.repositories.filter
    (fun r => decide (now - days_back * daySeconds < r.last_shown))).map
    RepoRow.repo_name

/-- Statistics record of get_statistics. -/
structure DbStats where
  user_id : String
  total_repositories : ℕ
  passing_repositories : ℕ
  recent_repositories : ℕ
  total_searches : ℕ
  average_analysis_score : ℚ
deriving DecidableEq

/-- Python round(x, 2) on a float. -/
def pyRound2 (x : ℚ) : ℚ := fl ((rhe (x * 100) : ℚ) / 100)

/-- Query of get_statistics on a working store; the SQL average is
modelled as the exact rational mean. -/
def statisticsRun (user_id : String) (now : ℤ) (st : DbState) : DbStats :=
  let scores := st.repositories.filterMap RepoRow.analysis_score
  let avg : ℚ := if scores.isEmpty then 0 else scores.foldl (· + ·) 0 / scores.length
  { user_id := user_id
    total_repositories := st.repositories.length
    passing_repositories := (st.repositories.filter (fun r => r.passes_criteria)).length
    recent_repositories := (st.repositories.filter
      (fun r => decide (now - 7 * daySeconds < r.last_shown))).length
    total_searches := st.searchHistory.length
    average_analysis_score := if avg == 0 then 0 else pyRound2 avg }

/-- Zero statistics returned by get_statistics on a storage error. -/
def zeroStats (user_id : String) : DbStats :=
  { user_id := user_id
    total_repositories := 0
    passing_repositories := 0
    recent_repositories := 0
    total_searches := 0
    average_analysis_score := 0 }

/-- Storage handle: a working state, or a storage (sqlite3) error raised
when the operation touches the database. -/
def Storage : Type := Except String DbState

/-- Model of get_last_search_offset: no try/except guards its query, so a
storage error propagates to the caller. -/
def get_last_search_offset (conn : Storage) (now : ℤ) (criteria : SearchCriteria) :
    Except String ℕ :=
  match conn with
  | .error e => .error e
  | .ok st => .ok (lastSearchOffsetRun now criteria st)

/-- Model of add_repositories: the connection is opened outside any
try/except, so a storage error propagates; on a working store the upserts
and the single history append run. -/
def add_repositories (conn : Storage) (now : ℤ) (repos : List RepoInput)
    (criteria : SearchCriteria) (search_offset : ℕ) : Except String DbState :=
  match conn with
  | .error e => .error e
  | .ok st => .ok (addRepositoriesRun now repos criteria search_offset st)

/-- Model of get_shown_repositories: its try/except returns the empty
list on a storage error. -/
def get_shown_repositories (conn : Storage) (now : ℤ) (days_back : ℤ) : List String :=
  match conn with
  | .error _ => []
  | .ok st => shownRepositoriesRun now days_back st

/-- Model of get_statistics: its try/except returns the zero statistics
record on a storage error. -/
def get_statistics (user_id : String) (conn : Storage) (now : ℤ) : DbStats :=
  match conn with
  | .error _ => zeroStats user_id
  | .ok st => statisticsRun user_id now st

/-- Model of cleanup_old_data: its try/except returns 0 on a storage
error, the number of deleted rows otherwise. -/
def cleanup_old_data (conn : Storage) (now : ℤ) (days_to_keep : ℤ) : ℕ :=
  match conn with
  | .error _ => 0
  | .ok st => (cleanupRun now days_to_keep st).1

/-- Model of reset_user_data on a working store: both tables are dropped
and recreated empty. -/
def resetUserDataRun (_st : DbState) : DbState :=
  { repositories := [], searchHistory := [] }

/-- Example search event used to exhibit the cleanup behaviour. -/
def c5ExampleEvent : SearchEvent :=
  { search_timestamp := 0
    min_stars := 500
    max_stars := 50000
    limit_requested := 10
    repos_found := 3
    new_repos_shown := 3
    search_offset := 20 }

/-- Example store holding one old search event. -/
def c5ExampleState : DbState :=
  { repositories := [], searchHistory := [c5ExampleEvent] }

/-- C5 counterexample: cleanup_old_data with 90 days to keep, run 91 days
after a search event was appended, deletes that search history row and
reports one deleted row; so an operation other than full user reset does
delete search history rows. -/
theorem c5_counterexample_cleanup_deletes_history :
    (cleanupRun (91 * daySeconds) 90 c5ExampleState).2.searchHistory = [] ∧
    c5ExampleState.searchHistory ≠ [] ∧
    cleanup_old_data (Except.ok c5ExampleState) (91 * daySeconds) 90 = 1 := by
  refine ⟨by decide, by decide, by decide⟩

/-- C5 amended: search history rows are never modified in place.
add_repositories only appends one row; cleanup_old_data deletes exactly
the rows older than the cutoff and keeps every younger row unchanged, and
every surviving row was already present; with at least one day kept, the
last-offset computation over the last 24 hours is unaffected by a
cleanup; full reset empties the table. -/
theorem c5_amended_history_append_and_bounded_cleanup :
    (∀ (now : ℤ) (repos : List RepoInput) (criteria : SearchCriteria) (off : ℕ)
      (st : DbState),
      (addRepositoriesRun now repos criteria off st).searchHistory
        = st.searchHistory ++ [searchEventOf now criteria repos.length off]) ∧
    (∀ (now days : ℤ) (st : DbState), ∀ e ∈ st.searchHistory,
      now - days * daySeconds ≤ e.search_timestamp →
        e ∈ (cleanupRun now days st).2.searchHistory) ∧
    (∀ (now days : ℤ) (st : DbState),
      ∀ e ∈ (cleanupRun now days st).2.searchHistory, e ∈ st.searchHistory) ∧
    (∀ (now days : ℤ) (criteria : SearchCriteria) (st : DbState), 1 ≤ days →
      lastSearchOffsetRun now criteria (cleanupRun now days st).2
        = lastSearchOffsetRun now criteria st) ∧
    (∀ st : DbState, (resetUserDataRun st).searchHistory = []) := by
  refine ⟨fun _ _ _ _ _ => rfl, ?_, ?_, ?_, fun _ => rfl⟩
  · intro now days st e he hts
    simp only [cleanupRun]
    refine List.mem_filter.mpr ⟨he, ?_⟩
    simp only [Bool.not_eq_true', decide_eq_false_iff_not, not_lt]
    linarith
  · intro now days st e he
    simp only [cleanupRun] at he
    exact List.mem_of_mem_filter he
  · intro now days criteria st hdays
    simp only [lastSearchOffsetRun, cleanupRun]
    congr 2
    rw [List.filter_filter]
    apply List.filter_congr
    intro e _
    by_cases hp : (e.min_stars == criteria.min_stars && e.max_stars == criteria.max_stars
        && decide (now - daySeconds < e.search_timestamp)) = true
    · have hts : now - daySeconds < e.search_timestamp := by
        have h1 := (Bool.and_eq_true _ _).mp hp
        exact of_decide_eq_true h1.2
      have hq : (!(decide (e.search_timestamp < now - days * daySeconds))) = true := by
        simp only [Bool.not_eq_true', decide_eq_false_iff_not, not_lt]
        have hd : daySeconds ≤ days * daySeconds := by
          have : (1:ℤ) * daySeconds ≤ days * daySeconds := by
            apply mul_le_mul_of_nonneg_right hdays
            simp [daySeconds]
          linarith [this]
        linarith
      rw [hp, hq]
      rfl
    · have hp2 : (e.min_stars == criteria.min_stars && e.max_stars == criteria.max_stars
          && decide (now - daySeconds < e.search_timestamp)) = false :=
        Bool.eq_false_iff.mpr hp
      rw [hp2]
      simp

/-- C5 amended witness: the conjuncts with hypotheses applied at the
example store: an event from the last day survives a 90 day cleanup and
the last-offset computation is unchanged by it. -/
theorem c5_amended_history_append_and_bounded_cleanup_witness :
    c5ExampleEvent ∈ (cleanupRun daySeconds 90 c5ExampleState).2.searchHistory ∧
    lastSearchOffsetRun daySeconds ⟨500, 50000, 10⟩
        (cleanupRun daySeconds 90 c5ExampleState).2
      = lastSearchOffsetRun daySeconds ⟨500, 50000, 10⟩ c5ExampleState :=
  ⟨c5_amended_history_append_and_bounded_cleanup.2.1 daySeconds 90 c5ExampleState
      c5ExampleEvent (by decide) (by decide),
   c5_amended_history_append_and_bounded_cleanup.2.2.2.1 daySeconds 90 ⟨500, 50000, 10⟩
      c5ExampleState (by decide)⟩

/-- C9 counterexample: get_last_search_offset has no try/except, so a
storage error propagates to the caller instead of a default value. -/
theorem c9_counterexample_offset_propagates :
    get_last_search_offset (Except.error "disk error") 0 ⟨500, 50000, 10⟩
      = Except.error "disk error" ∧
    (Except.error "disk error" : Except String ℕ) ≠ Except.ok 0 := by
  refine ⟨rfl, fun h => Except.noConfusion h⟩

/-- C9 amended: listing recently shown repositories, statistics and
cleanup degrade gracefully to empty, zero statistics and 0 on a storage
error, but computing the last search offset and adding repositories
propagate the storage error to the caller. -/
theorem c9_amended_graceful_degradation_except_offset_and_add :
    ∀ (e user_id : String) (now days : ℤ) (criteria : SearchCriteria)
      (repos : List RepoInput) (off : ℕ),
      get_shown_repositories (Except.error e) now days = [] ∧
      get_statistics user_id (Except.error e) now = zeroStats user_id ∧
      cleanup_old_data (Except.error e) now days = 0 ∧
      get_last_search_offset (Except.error e) now criteria = Except.error e ∧
      add_repositories (Except.error e) now repos criteria off = Except.error e := by
  intro e user_id now days criteria repos off
  exact ⟨rfl, rfl, rfl, rfl, rfl⟩

/-! ## Model of RepositoryAnalyzer.analyze_repository_deep -/

/-- Contribution opportunity record. -/
structure Opportunity where
  type : String
  title : String
  url : String
deriving DecidableEq

/-- License field of the repository details payload: the key may be
missing, may hold a json null, or may hold an object with an optional
name. -/
inductive LicenseField where
  | missing
  | nullVal
  | obj (name : Option String)
deriving DecidableEq

/-- Repository details payload returned by _get_repo_details on success;
a none description models a json null. -/
structure RepoData where
  stargazers_count : ℤ
  license : LicenseField
  description : Option String
  size : ℕ
  language : Option String
deriving DecidableEq

/-- Result of _check_repository_activity; the function catches its own
exceptions and always returns a record. -/
structure ActivityResult where
  score : ℚ
  reasons : List String
  warnings : List String

/-- Result of _find_contribution_opportunities; always returns. -/
structure OppResult where
  score : ℚ
  items : List Opportunity

/-- Result of _check_maintainability; always returns. -/
structure MaintResult where
  score : ℚ
  reasons : List String

/-- Outcomes of the network-dependent steps of one deep analysis: the
initial fetch may raise (error), return no payload (a non-200 response,
modelled as ok none) or return a payload; the issue and content lookups
catch their own errors and always return. -/
structure DeepOracle where
  fetch : Except String (Option RepoData)
  activity : RepoData → ActivityResult
  opportunity : OppResult
  maintainability : MaintResult

/-- Analysis record built by analyze_repository_deep; the stars, license
and description keys are absent until the fetch succeeds. -/
structure DeepAnalysis where
  repo_name : String
  overall_score : ℚ
  is_suitable : Bool
  activity_score : ℚ
  opportunity_score : ℚ
  complexity_score : ℚ
  maintainability_score : ℚ
  reasons : List String
  opportunities : List Opportunity
  warnings : List String
  recommendation : String
  stars : Option ℤ := none
  license : Option String := none
  description : Option String := none

/-- Initial analysis dict of analyze_repository_deep. -/
def initAnalysis (owner repo : String) : DeepAnalysis :=
  { repo_name := owner ++ "/" ++ repo
    overall_score := 0
    is_suitable := false
    activity_score := 0
    opportunity_score := 0
    complexity_score := 0
    maintainability_score := 0
    reasons := []
    opportunities := []
    warnings := []
    recommendation := "" }

/-- Warning appended by the top level except clause. -/
def addAnalysisFailed (a : DeepAnalysis) (e : String) : DeepAnalysis :=
  { a with warnings := a.warnings ++ ["Analysis failed: " ++ e] }

/-- Model of the license display name extraction: a missing license key
gives Unknown, a null value raises, an object gives its name or
Unknown. -/
def licenseDisplayName : LicenseField → Except String String
  | .missing => .ok "Unknown"
  | .nullVal => .error "AttributeError: get on NoneType"
  | .obj name => .ok (name.getD "Unknown")

/-- Model of the complexity step inside the deep analysis: a null
description makes len raise, otherwise the pure score of
_assess_complexity. -/
def complexityChecked (rd : RepoData) : Except String ℚ :=
  match rd.description with
  | none => .error "TypeError: len of NoneType"
  | some d => .ok (assess_complexity_score rd.size rd.language d)

/-- Model of RepositoryAnalyzer.analyze_repository_deep: the outer
try/except catches every raise and appends an Analysis failed warning to
the partially filled record; a fetch with no payload keeps every score at
0 and appends the fetch warning; otherwise the sub-scores are collected
and combined with _calculate_suitability_score. The textual reasons of
the complexity step carry no logic and are elided. -/
def analyze_repository_deep (owner repo : String) (o : DeepOracle) : DeepAnalysis :=
  let a0 := initAnalysis owner repo
  match o.fetch with
  | .error e => addAnalysisFailed a0 e
  | .ok none => { a0 with warnings := a0.warnings ++ ["Could not fetch repository data"] }
  | .ok (some rd) =>
    let a1 := { a0 with stars := some rd.stargazers_count }
    match licenseDisplayName rd.license with
    | .error e => addAnalysisFailed a1 e
    | .ok lic =>
      let a2 := { a1 with license := some lic, description := rd.description }
      let act := o.activity rd
      let a3 := { a2 with
        activity_score := act.score
        reasons := a2.reasons ++ act.reasons
        warnings := a2.warnings ++ act.warnings }
      let opp := o.opportunity
      let a4 := { a3 with opportunity_score := opp.score, opportunities := opp.items }
      match complexityChecked rd with
      | .error e => addAnalysisFailed a4 e
      | .ok cscore =>
        let a5 := { a4 with complexity_score := cscore }
        let mnt := o.maintainability
        let a6 := { a5 with
          maintainability_score := mnt.score
          reasons := a5.reasons ++ mnt.reasons }
        let overall := calcSuitabilityScore a6.activity_score a6.opportunity_score
          a6.complexity_score a6.maintainability_score
        { a6 with
          overall_score := overall
          is_suitable := decide (fl (7/2) ≤ overall)
          recommendation := generateRecommendation overall }

/-- C8: the deep analysis always yields an analysis record for its
owner/repo input (every raise of the body is caught), and when the
initial fetch fails, with no payload or with a raise, the record carries
overall and component scores 0 and a warning describing the failure. -/
theorem c8_deep_analysis_total_and_zero_on_fetch_failure :
    ∀ (owner repo : String) (o : DeepOracle),
      (analyze_repository_deep owner repo o).repo_name = owner ++ "/" ++ repo ∧
      (o.fetch = Except.ok none →
        (analyze_repository_deep owner repo o).overall_score = 0 ∧
        (analyze_repository_deep owner repo o).activity_score = 0 ∧
        (analyze_repository_deep owner repo o).opportunity_score = 0 ∧
        (analyze_repository_deep owner repo o).complexity_score = 0 ∧
        (analyze_repository_deep owner repo o).maintainability_score = 0 ∧
        "Could not fetch repository data" ∈ (analyze_repository_deep owner repo o).warnings) ∧
      (∀ e, o.fetch = Except.error e →
        (analyze_repository_deep owner repo o).overall_score = 0 ∧
        (analyze_repository_deep owner repo o).activity_score = 0 ∧
        (analyze_repository_deep owner repo o).opportunity_score = 0 ∧
        (analyze_repository_deep owner repo o).complexity_score = 0 ∧
        (analyze_repository_deep owner repo o).maintainability_score = 0 ∧
        ("Analysis failed: " ++ e) ∈ (analyze_repository_deep owner repo o).warnings) := by
  intro owner repo o
  refine ⟨?_, ?_, ?_⟩
  · rcases ho : o.fetch with e | rdo
    · simp [analyze_repository_deep, ho, addAnalysisFailed, initAnalysis]
    · rcases rdo with _ | rd
      · simp [analyze_repository_deep, ho, initAnalysis]
      · rcases hl : licenseDisplayName rd.license with el | lic
        · simp [analyze_repository_deep, ho, hl, addAnalysisFailed, initAnalysis]
        · rcases hcx : complexityChecked rd with ec | cscore
          · simp [analyze_repository_deep, ho, hl, hcx, addAnalysisFailed, initAnalysis]
          · simp [analyze_repository_deep, ho, hl, hcx, initAnalysis]
  · intro h
    simp [analyze_repository_deep, h, initAnalysis]
  · intro e h
    simp [analyze_repository_deep, h, addAnalysisFailed, initAnalysis]

/-- Oracle whose fetch returns no payload, used as the C8 witness. -/
def c8WitnessOracle : DeepOracle :=
  { fetch := Except.ok none
    activity := fun _ => { score := 0, reasons := [], warnings := [] }
    opportunity := { score := 0, items := [] }
    maintainability := { score := 0, reasons := [] } }

/-- C8 witness: the theorem applied at a concrete oracle whose fetch
returns no payload. -/
theorem c8_deep_analysis_total_and_zero_on_fetch_failure_witness :
    (analyze_repository_deep "octo" "proj" c8WitnessOracle).repo_name = "octo/proj" ∧
    ((analyze_repository_deep "octo" "proj" c8WitnessOracle).overall_score = 0 ∧
      (analyze_repository_deep "octo" "proj" c8WitnessOracle).activity_score = 0 ∧
      (analyze_repository_deep "octo" "proj" c8WitnessOracle).opportunity_score = 0 ∧
      (analyze_repository_deep "octo" "proj" c8WitnessOracle).complexity_score = 0 ∧
      (analyze_repository_deep "octo" "proj" c8WitnessOracle).maintainability_score = 0 ∧
      "Could not fetch repository data"
        ∈ (analyze_repository_deep "octo" "proj" c8WitnessOracle).warnings) :=
  ⟨(c8_deep_analysis_total_and_zero_on_fetch_failure "octo" "proj" c8WitnessOracle).1,
   (c8_deep_analysis_total_and_zero_on_fetch_failure "octo" "proj" c8WitnessOracle).2.1 rfl⟩
